import Mathlib

/-!
Verification development for the polymorphic search-expression engine of the
rest-api repository (rest_api/entities/search_models.py, with the helpers in
rest_api/helpers/introspection.py and the entity declarations in
rest_api/entities/users.py and rest_api/entities/companies.py).

The engine is a small recursive AST of boolean query predicates (And, Or, Not,
and the entity leaves User and Company).  It deserializes from a
self-discriminating JSON shape (pydantic discriminated-union style) and
compiles, via render_condition, into a SQLAlchemy boolean condition that the
persistence layer executes as a WHERE clause.

Modelling decisions, each anchored in the source:
* SQLAlchemy `and_` / `or_` / `not_` build an opaque condition AST.  With one
  condition both `and_` and `or_` return the child unchanged (search_models.py
  lines 114-116, 162-164, 176-178); with more they build the n-ary
  conjunction / disjunction, modelled as a right-nested tree of binary nodes,
  which is semantically identical.  With no conditions both return an empty
  BooleanClauseList, a vanishing clause that compiles to a blank string and
  is dropped from the WHERE clause, so the query keeps every row: both empty
  cases are modelled as the universally-true condition.  The in-source
  comment that an empty `or_` returns something that evaluates to False
  describes the author's intent, not the library (see claim C2).
* The generated condition is executed by a SQL engine, so its row semantics is
  SQL three-valued logic: a comparison `column = value` on a row whose column
  is NULL evaluates to UNKNOWN, NOT maps UNKNOWN to UNKNOWN, and a WHERE
  clause keeps exactly the rows on which the condition evaluates to TRUE.
* Pydantic distinguishes a field that was never provided from a field
  explicitly set to null; `FieldVal` captures the three states (unset,
  explicit null, value).  `render_condition` only looks at `is not None`
  (lines 108-112) and serialization with exclude_unset drops only unset
  fields, exactly as modelled.
* Pydantic v2 validates in lax mode here (no strict config): an int field
  accepts an integer-interpretable string and coerces it (modelled by
  strToInt after pydantic-core clean_int_str: whitespace trim, sign,
  underscore stripping, removal of an all-zero fraction tail), while a
  non-interpretable string fails naming the field; a str field rejects
  non-string primitives.
-/

/-- A primitive value carried by a leaf predicate field: the leaves only
declare Optional[int] and Optional[str] fields. -/
inductive Value where
  | vInt (n : Int)
  | vStr (s : String)
deriving DecidableEq, Repr

/-- SQL three-valued logic truth values: true, false, unknown (NULL). -/
inductive TV where
  | t
  | f
  | u
deriving DecidableEq, Repr

/-- Three-valued NOT. -/
def tvNot : TV → TV
  | .t => .f
  | .f => .t
  | .u => .u

/-- Three-valued AND. -/
def tvAnd : TV → TV → TV
  | .f, _ => .f
  | .t, y => y
  | .u, .f => .f
  | .u, _ => .u

/-- Three-valued OR. -/
def tvOr : TV → TV → TV
  | .t, _ => .t
  | .f, y => y
  | .u, .t => .t
  | .u, _ => .u

/-- The condition AST produced by render_condition: the shapes SQLAlchemy
builds for `column == value` (BinaryExpression), `and_`, `or_`, `not_`, plus
the universally-true condition modelling the blank clause that empty `and_`
and `or_` compile to (the WHERE clause drops a blank condition, keeping
every row) and the universally-false condition (SQL false()), carried for
completeness of the condition language. -/
inductive Cond where
  | trueC
  | falseC
  | eqCol (entity : String) (field : String) (v : Value)
  | notC (c : Cond)
  | andC (a : Cond) (b : Cond)
  | orC (a : Cond) (b : Cond)
deriving DecidableEq, Repr

/-- A database row assignment: maps an entity name and a column name to the
stored value, `none` meaning SQL NULL. -/
abbrev Row := String → String → Option Value

/-- Evaluate a condition on a row under SQL three-valued logic.  A comparison
against a NULL column is UNKNOWN; the comparison value itself is never NULL
because render_condition only emits comparisons for non-None field values. -/
def evalCond (row : Row) : Cond → TV
  | .trueC => .t
  | .falseC => .f
  | .eqCol entity field v =>
      match row entity field with
      | none => .u
      | some w => if w = v then .t else .f
  | .notC c => tvNot (evalCond row c)
  | .andC a b => tvAnd (evalCond row a) (evalCond row b)
  | .orC a b => tvOr (evalCond row a) (evalCond row b)

/-- A WHERE clause keeps exactly the rows where the condition is TRUE. -/
def matchesRow (row : Row) (c : Cond) : Bool :=
  evalCond row c = TV.t

/-- SQLAlchemy `and_(*conditions)`: one condition returns the child,
two or more build the conjunction.  With no conditions `and_()` returns an
empty BooleanClauseList that compiles blank and is dropped from the WHERE
clause, so every row matches, consistent with the in-source comment that it
evaluates to True; modelled as the universally-true condition. -/
def and_ : List Cond → Cond
  | [] => .trueC
  | [c] => c
  | c :: rest => .andC c (and_ rest)

/-- SQLAlchemy `or_(*conditions)`: one condition returns the child, two or
more build the disjunction.  With no conditions `or_()` (deprecated since
SQLAlchemy 1.4) returns an empty BooleanClauseList exactly like empty
`and_()`: it compiles to a blank string and the surrounding `.where()` drops
the blank condition, so every row matches.  The in-source comment (lines
162-164) claims this case returns something that evaluates to False; the
library behaviour is the vanishing clause, modelled as the universally-true
condition — the basis of the C2 code-bug finding. -/
def or_ : List Cond → Cond
  | [] => .trueC
  | [c] => c
  | c :: rest => .orC c (or_ rest)

/-- SQLAlchemy `not_(condition)`. -/
def not_ (c : Cond) : Cond := .notC c

/-- The three states a pydantic model field can be in: never provided (not in
fields_set), explicitly set to null / None, or set to a value. -/
inductive FieldVal (α : Type) where
  | unset
  | setNull
  | val (a : α)
deriving DecidableEq, Repr

/-- Map over the value of a field state. -/
def FieldVal.map (f : α → β) : FieldVal α → FieldVal β
  | .unset => .unset
  | .setNull => .setNull
  | .val a => .val (f a)

/-- The declared fields of UserSearchModel (search_models.py lines 182-199),
besides the discriminator: id, first_name, last_name, email, company_id. -/
structure UserFields where
  id : FieldVal Int
  first_name : FieldVal String
  last_name : FieldVal String
  email : FieldVal String
  company_id : FieldVal Int
deriving DecidableEq, Repr

/-- The declared fields of CompanySearchModel (search_models.py lines
201-209), besides the discriminator: id, name. -/
structure CompanyFields where
  id : FieldVal Int
  name : FieldVal String
deriving DecidableEq, Repr

/-- The SearchModel discriminated union (search_models.py lines 213-216):
NotSearchModel, OrSearchModel, AndSearchModel, UserSearchModel,
CompanySearchModel.  The abstract tiers (BaseSearchModel,
OperatorSearchModel, ...) are not instantiable and so have no constructors. -/
inductive SearchModel where
  | NotSearchModel (child : SearchModel)
  | OrSearchModel (children : List SearchModel)
  | AndSearchModel (children : List SearchModel)
  | UserSearchModel (fields : UserFields)
  | CompanySearchModel (fields : CompanyFields)

/-- UserSearchModel.__class__.__annotations__ in declaration order, paired
with the current attribute value of each field: type, id, first_name,
last_name, email, company_id.  The `type` attribute is always the string
"User" on a constructed instance (the discriminator validator enforces it). -/
def userFieldEntries (u : UserFields) : List (String × FieldVal Value) :=
  [("type", .val (.vStr ("User"))),
   ("id", u.id.map .vInt),
   ("first_name", u.first_name.map .vStr),
   ("last_name", u.last_name.map .vStr),
   ("email", u.email.map .vStr),
   ("company_id", u.company_id.map .vInt)]

/-- CompanySearchModel.__class__.__annotations__ in declaration order, paired
with the current attribute value of each field: type, id, name. -/
def companyFieldEntries (c : CompanyFields) : List (String × FieldVal Value) :=
  [("type", .val (.vStr ("Company"))),
   ("id", c.id.map .vInt),
   ("name", c.name.map .vStr)]

/-- The list comprehension of EntitySearchModel.render_condition (lines
108-112): for each annotated field that is not "type" and whose attribute
value is not None, emit the comparison `storage column == value` against the
entity table resolved from the class name. -/
def leafConds (entity : String) (entries : List (String × FieldVal Value)) : List Cond :=
  entries.filterMap (fun p =>
    if p.1 != "type" then
      match p.2 with
      | .val v => some (Cond.eqCol entity p.1 v)
      | _ => none
    else none)

mutual

/-- render_condition, case by case on the concrete SearchModel classes:
an entity leaf ANDs its emitted field comparisons (lines 80-117), Not negates
its child (lines 146-151), Or ORs its children (lines 157-166), And ANDs its
children (lines 172-180). -/
def render_condition : SearchModel → Cond
  | .NotSearchModel child => not_ (render_condition child)
  | .OrSearchModel children => or_ (renderConditionList children)
  | .AndSearchModel children => and_ (renderConditionList children)
  | .UserSearchModel u => and_ (leafConds ("User") (userFieldEntries u))
  | .CompanySearchModel c => and_ (leafConds ("Company") (companyFieldEntries c))

/-- The list of rendered child conditions `[child.render_condition() for
child in self.children]`. -/
def renderConditionList : List SearchModel → List Cond
  | [] => []
  | t :: ts => render_condition t :: renderConditionList ts

end

/-- A JSON value, the raw input shape of the deserializer and of
entities_for_search_model: null, number, string, object, array. -/
inductive JValue where
  | jNull
  | jInt (n : Int)
  | jStr (s : String)
  | jObj (fields : List (String × JValue))
  | jArr (elems : List JValue)

/-- First-match lookup of a key in a JSON object, the dict access used
throughout the source. -/
def lookupField : List (String × JValue) → String → Option JValue
  | [], _ => none
  | (k2, v2) :: rest, k => if k2 = k then some v2 else lookupField rest k

/-- introspection.has_field on a dict: `field in obj`. -/
def has_field (obj : List (String × JValue)) (field : String) : Bool :=
  (lookupField obj field).isSome

/-- introspection.get_field on a dict: the value when present.  (The Python
version raises KeyError when absent; the discriminator only calls it after
has_field, so the Option return captures both behaviours.) -/
def get_field (obj : List (String × JValue)) (field : String) : Option JValue :=
  lookupField obj field

/-- Serialization of one Optional[int] field under dict(exclude_unset=True):
an unset field is omitted, an explicit None serializes as null, a value
serializes as a number. -/
def serFieldInt (name : String) : FieldVal Int → List (String × JValue)
  | .unset => []
  | .setNull => [(name, .jNull)]
  | .val n => [(name, .jInt n)]

/-- Serialization of one Optional[str] field under dict(exclude_unset=True). -/
def serFieldStr (name : String) : FieldVal String → List (String × JValue)
  | .unset => []
  | .setNull => [(name, .jNull)]
  | .val s => [(name, .jStr s)]

/-- The dict(exclude_unset=True) form of a UserSearchModel.  The `type` field
is always present: the discriminator validator rejects any construction or
parse in which it was not supplied, so it is always in fields_set. -/
def userSerFields (u : UserFields) : List (String × JValue) :=
  ("type", .jStr ("User")) ::
    (serFieldInt ("id") u.id ++ serFieldStr ("first_name") u.first_name ++
     serFieldStr ("last_name") u.last_name ++ serFieldStr ("email") u.email ++
     serFieldInt ("company_id") u.company_id)

/-- The dict(exclude_unset=True) form of a CompanySearchModel. -/
def companySerFields (c : CompanyFields) : List (String × JValue) :=
  ("type", .jStr ("Company")) ::
    (serFieldInt ("id") c.id ++ serFieldStr ("name") c.name)

mutual

/-- model.dict(exclude_unset=True): the nested-dict serialization of a
SearchModel tree.  Combinators always carry their `type` tag and their
required child / children; leaves carry `type` plus exactly the fields that
were explicitly set. -/
def serialize : SearchModel → JValue
  | .NotSearchModel child =>
      .jObj [("type", .jStr ("Not")), ("child", serialize child)]
  | .OrSearchModel children =>
      .jObj [("type", .jStr ("Or")), ("children", .jArr (serializeList children))]
  | .AndSearchModel children =>
      .jObj [("type", .jStr ("And")), ("children", .jArr (serializeList children))]
  | .UserSearchModel u => .jObj (userSerFields u)
  | .CompanySearchModel c => .jObj (companySerFields c)

/-- Serialization of a list of child models. -/
def serializeList : List SearchModel → List JValue
  | [] => []
  | t :: ts => serialize t :: serializeList ts

end

/-- The string Python interpolates for the `type` value in
f-string form: a string is itself, a number its decimal form, None the text
None, and container values render with delimiters that can never occur in a
class name. -/
def tagStr : JValue → String
  | .jStr s => s
  | .jInt n => toString n
  | .jNull => "None"
  | .jObj _ => "\x7bdict\x7d"
  | .jArr _ => "[list]"

/-- True when an optional JSON value is an explicit null, the `is None` test
of the discriminator. -/
def isNullValue : Option JValue → Bool
  | some .jNull => true
  | _ => false

/-- BaseSearchModel.discriminator (search_models.py lines 53-67): fail when
the `type` field is missing or None, then fail unless the class name equals
the tag value followed by SearchModel; otherwise accept. -/
def discriminator (clsName : String) (values : List (String × JValue)) : Except String Unit :=
  if has_field values ("type") = false then
    .error ("type must be set for all SearchModel instances")
  else if isNullValue (get_field values ("type")) then
    .error ("type must be set for all SearchModel instances")
  else
    match get_field values ("type") with
    | none => .error ("type must be set for all SearchModel instances")
    | some tv =>
        if clsName = tagStr tv ++ "SearchModel" then .ok ()
        else .error ("type was set to " ++ tagStr tv ++ " for class " ++ clsName)

/-- Config extra = "forbid" (search_models.py lines 43-46): reject the first
input key that is not a declared field of the matched class. -/
def checkExtra (allowed : List String) : List (String × JValue) → Except String Unit
  | [] => .ok ()
  | (k, _) :: rest =>
      if k ∈ allowed then checkExtra allowed rest
      else .error (k ++ ": extra fields not permitted")

/-- The Unicode whitespace characters that surrounding-whitespace trimming
removes (the White_Space set Rust's char::is_whitespace uses, which
pydantic-core trims around a numeric string). -/
def isIntSpace (c : Char) : Bool :=
  (0x9 ≤ c.val && c.val ≤ 0xD) || c.val == 0x20 || c.val == 0x85 || c.val == 0xA0 ||
    c.val == 0x1680 || (0x2000 ≤ c.val && c.val ≤ 0x200A) || c.val == 0x2028 ||
    c.val == 0x2029 || c.val == 0x202F || c.val == 0x205F || c.val == 0x3000

/-- Strip leading and trailing whitespace from a character list. -/
def trimIntChars (cs : List Char) : List Char :=
  ((cs.dropWhile isIntSpace).reverse.dropWhile isIntSpace).reverse

/-- Read a run of digits possibly interspersed with underscores (which
pydantic-core strips), producing its value; fails on any other character or
when no digit at all is present. -/
def digitsValue (acc : Nat) (seenDigit : Bool) : List Char → Option Nat
  | [] => if seenDigit then some acc else none
  | c :: cs =>
      if c.isDigit then digitsValue (acc * 10 + (c.toNat - 48)) true cs
      else if c = '_' then digitsValue acc seenDigit cs
      else none

/-- Split a character list at its first dot: the part before it and, when a
dot occurs, the part after it. -/
def splitAtDot : List Char → List Char × Option (List Char)
  | [] => ([], none)
  | c :: cs =>
      if c = '.' then ([], some cs)
      else
        let r := splitAtDot cs
        (c :: r.1, r.2)

/-- Pydantic v2 lax string-to-integer coercion, modelling pydantic-core
clean_int_str followed by integer parsing: surrounding whitespace is
trimmed, a single leading plus is stripped and the parser then consumes at
most one further sign, a trailing fraction consisting of a dot followed by
only zeros (possibly none) is removed, underscores among the digits are
stripped, and what remains must be one or more digits.  Where pydantic-core
is stricter (underscore placement, a bare trailing dot) this model accepts
more strings, so every string this model rejects is also rejected by the
program — the sound direction for the failure assertions built on it. -/
def strToInt (s : String) : Option Int :=
  let cs := trimIntChars s.data
  let cs1 :=
    match cs with
    | '+' :: rest => rest
    | rest => rest
  let signed :=
    match cs1 with
    | '-' :: rest => (true, rest)
    | '+' :: rest => (false, rest)
    | rest => (false, rest)
  let split := splitAtDot signed.2
  let fracOk :=
    match split.2 with
    | none => true
    | some fs => fs.all (fun c => c = '0')
  if fracOk then
    match digitsValue 0 false split.1 with
    | some n => some (if signed.1 then -(n : Int) else (n : Int))
    | none => none
  else none

/-- Pydantic v2 lax validation of an Optional[int] field value: absent stays
unset, null is an explicit None, an integer is taken as is, a string is
coerced when it parses as an integer and otherwise fails naming the field,
and any other shape fails naming the field. -/
def parseIntField (name : String) : Option JValue → Except String (FieldVal Int)
  | none => .ok .unset
  | some .jNull => .ok .setNull
  | some (.jInt n) => .ok (.val n)
  | some (.jStr s) =>
      match strToInt s with
      | some n => .ok (.val n)
      | none => .error (name ++ ": value is not a valid integer")
  | some _ => .error (name ++ ": value is not a valid integer")

/-- Pydantic v2 lax validation of an Optional[str] field value: absent stays
unset, null is an explicit None, a string is taken as is, and any non-string
value (numbers included) fails naming the field. -/
def parseStrField (name : String) : Option JValue → Except String (FieldVal String)
  | none => .ok .unset
  | some .jNull => .ok .setNull
  | some (.jStr s) => .ok (.val s)
  | some _ => .error (name ++ ": str type expected")

/-- Validation of a JSON object against UserSearchModel: the discriminator
before-validator, then the extra-field policy, then each declared field in
declaration order.  (The type field itself is the string User whenever the
discriminator accepts, so its str validation cannot fail.) -/
def parseUser (fields : List (String × JValue)) : Except String UserFields :=
  match discriminator ("UserSearchModel") fields with
  | .error e => .error e
  | .ok _ =>
  match checkExtra ["type", "id", "first_name", "last_name", "email", "company_id"] fields with
  | .error e => .error e
  | .ok _ =>
  match parseIntField ("id") (lookupField fields ("id")) with
  | .error e => .error e
  | .ok idv =>
  match parseStrField ("first_name") (lookupField fields ("first_name")) with
  | .error e => .error e
  | .ok fnv =>
  match parseStrField ("last_name") (lookupField fields ("last_name")) with
  | .error e => .error e
  | .ok lnv =>
  match parseStrField ("email") (lookupField fields ("email")) with
  | .error e => .error e
  | .ok emv =>
  match parseIntField ("company_id") (lookupField fields ("company_id")) with
  | .error e => .error e
  | .ok cidv => .ok ⟨idv, fnv, lnv, emv, cidv⟩

/-- Validation of a JSON object against CompanySearchModel. -/
def parseCompany (fields : List (String × JValue)) : Except String CompanyFields :=
  match discriminator ("CompanySearchModel") fields with
  | .error e => .error e
  | .ok _ =>
  match checkExtra ["type", "id", "name"] fields with
  | .error e => .error e
  | .ok _ =>
  match parseIntField ("id") (lookupField fields ("id")) with
  | .error e => .error e
  | .ok idv =>
  match parseStrField ("name") (lookupField fields ("name")) with
  | .error e => .error e
  | .ok nv => .ok ⟨idv, nv⟩

/-- Whether an Except value is a success. -/
def isOk : Except String α → Bool
  | .ok _ => true
  | .error _ => false

mutual

/-- parse_obj_as(SearchModel, v): polymorphic deserialization over the
declared union order NotSearchModel, OrSearchModel, AndSearchModel,
UserSearchModel, CompanySearchModel.  Each class's discriminator
before-validator accepts exactly when the type tag followed by SearchModel
equals that class name, so the tags are mutually exclusive and trying the
variants in order is decided by the first discriminator that matches; when
none matches (or the input is not an object) the whole parse fails. -/
def parseSM : JValue → Except String SearchModel
  | .jObj fields =>
    if isOk (discriminator ("NotSearchModel") fields) then
      match checkExtra ["type", "child"] fields with
      | .error e => .error e
      | .ok _ =>
        match _h1 : lookupField fields ("child") with
        | none => .error ("child: field required")
        | some cv =>
          match parseSM cv with
          | .error e => .error e
          | .ok c => .ok (.NotSearchModel c)
    else if isOk (discriminator ("OrSearchModel") fields) then
      match checkExtra ["type", "children"] fields with
      | .error e => .error e
      | .ok _ =>
        match _h2 : lookupField fields ("children") with
        | none => .error ("children: field required")
        | some (.jArr elems) =>
          match parseSMList elems with
          | .error e => .error e
          | .ok cs => .ok (.OrSearchModel cs)
        | some _ => .error ("children: value is not a valid list")
    else if isOk (discriminator ("AndSearchModel") fields) then
      match checkExtra ["type", "children"] fields with
      | .error e => .error e
      | .ok _ =>
        match _h3 : lookupField fields ("children") with
        | none => .error ("children: field required")
        | some (.jArr elems) =>
          match parseSMList elems with
          | .error e => .error e
          | .ok cs => .ok (.AndSearchModel cs)
        | some _ => .error ("children: value is not a valid list")
    else if isOk (discriminator ("UserSearchModel") fields) then
      match parseUser fields with
      | .error e => .error e
      | .ok u => .ok (.UserSearchModel u)
    else if isOk (discriminator ("CompanySearchModel") fields) then
      match parseCompany fields with
      | .error e => .error e
      | .ok c => .ok (.CompanySearchModel c)
    else .error ("no SearchModel variant matched the type tag")
  | .jNull => .error ("value is not a valid dict")
  | .jInt _ => .error ("value is not a valid dict")
  | .jStr _ => .error ("value is not a valid dict")
  | .jArr _ => .error ("value is not a valid dict")
termination_by v => sizeOf v
decreasing_by
  all_goals
    (have hlt : ∀ (fs : List (String × JValue)) (k : String) (v : JValue),
        lookupField fs k = some v → sizeOf v < sizeOf fs := by
      intro fs k v h
      induction fs with
      | nil => simp [lookupField] at h
      | cons p rest ih =>
          obtain ⟨k2, v2⟩ := p
          rw [lookupField] at h
          by_cases hk : k2 = k
          · simp only [if_pos hk, Option.some.injEq] at h
            subst h
            simp only [List.cons.sizeOf_spec, Prod.mk.sizeOf_spec]
            omega
          · simp only [if_neg hk] at h
            have := ih h
            simp only [List.cons.sizeOf_spec]
            omega)
  · have := hlt _ _ _ _h1
    simp only [JValue.jObj.sizeOf_spec]
    omega
  · have := hlt _ _ _ _h2
    simp only [JValue.jObj.sizeOf_spec, JValue.jArr.sizeOf_spec] at this ⊢
    omega
  · have := hlt _ _ _ _h3
    simp only [JValue.jObj.sizeOf_spec, JValue.jArr.sizeOf_spec] at this ⊢
    omega

/-- Elementwise deserialization of a `children` array, failing on the first
element that fails. -/
def parseSMList : List JValue → Except String (List SearchModel)
  | [] => .ok []
  | v :: rest =>
      match parseSM v with
      | .error e => .error e
      | .ok c =>
        match parseSMList rest with
        | .error e => .error e
        | .ok cs => .ok (c :: cs)
termination_by vs => sizeOf vs
decreasing_by
  · simp only [List.cons.sizeOf_spec]
    omega
  · simp only [List.cons.sizeOf_spec]
    omega

end

/-- The storage-backed entity classes that `globals()` can resolve: the
SQLModel classes User and Company imported in search_models.py. -/
inductive EntityClass where
  | User
  | Company
deriving DecidableEq, Repr

/-- `globals()[name]` restricted to the entity classes available in the
module namespace. -/
def globalsEntityLookup : String → Option EntityClass
  | "User" => some .User
  | "Company" => some .Company
  | _ => none

/-- The value of the `type` attribute of a constructed SearchModel instance.
The discriminator validator makes it always equal the class name minus the
SearchModel suffix. -/
def typeFieldOf : SearchModel → String
  | .NotSearchModel _ => "Not"
  | .OrSearchModel _ => "Or"
  | .AndSearchModel _ => "And"
  | .UserSearchModel _ => "User"
  | .CompanySearchModel _ => "Company"

/-- entity_types (search_models.py lines 218-219): the names of the concrete
EntitySearchModel subclasses, in definition order, with the SearchModel
suffix stripped. -/
def entity_types : List String := ["User", "Company"]

/-- entity_class_for_tree (search_models.py lines 221-236): an entity leaf
resolves `globals()[tree.type]`; a unary operator delegates to its child; any
other node delegates to its first child, raising IndexError when the children
list is empty.  Python exceptions are modelled as errors. -/
def entity_class_for_tree : SearchModel → Except String EntityClass
  | .UserSearchModel u =>
      match globalsEntityLookup (typeFieldOf (.UserSearchModel u)) with
      | some cls => .ok cls
      | none => .error ("KeyError")
  | .CompanySearchModel c =>
      match globalsEntityLookup (typeFieldOf (.CompanySearchModel c)) with
      | some cls => .ok cls
      | none => .error ("KeyError")
  | .NotSearchModel child => entity_class_for_tree child
  | .OrSearchModel children =>
      match children with
      | [] => .error ("IndexError: list index out of range")
      | c :: _ => entity_class_for_tree c
  | .AndSearchModel children =>
      match children with
      | [] => .error ("IndexError: list index out of range")
      | c :: _ => entity_class_for_tree c

/-- Iterating a non-list Python value under a `children` key: an empty dict
or empty string iterates zero elements so the loop body never runs; a
non-empty dict or string yields non-dict elements and raises the dict check;
None and numbers are not iterable at all. -/
def iterNonList : JValue → Except String Unit
  | .jObj [] => .ok ()
  | .jObj (_ :: _) => .error ("expected only dicts as children")
  | .jStr s => if s = "" then .ok () else .error ("expected only dicts as children")
  | .jNull => .error ("TypeError: not iterable")
  | .jInt _ => .error ("TypeError: not iterable")
  | .jArr _ => .error ("unreachable: list values are iterated directly")

/-- The first step of entities_for_search_model: when the dict's type tag is
one of the entity type names, parse the whole dict as a SearchModel and yield
it as a one-element list, otherwise yield nothing; a parse failure
propagates. -/
def entityLeafHere (fields : List (String × JValue)) : Except String (List SearchModel) :=
  match lookupField fields ("type") with
  | some (.jStr t) =>
      if t ∈ entity_types then
        match parseSM (.jObj fields) with
        | .error e => .error e
        | .ok entity => .ok [entity]
      else .ok []
  | _ => .ok []

mutual

/-- entities_for_search_model (search_models.py lines 238-258) on a raw JSON
value.  Non-dict input raises ValueError.  If the dict's type tag is one of
the entity type names the whole dict is parsed as a SearchModel and appended
first; then the items are scanned in order, recursing into a `child` value
and into each element of a `children` value, each of which must be a dict. -/
def entities_for_search_model : JValue → Except String (List SearchModel)
  | .jObj fields =>
      match entityLeafHere fields with
      | .error e => .error e
      | .ok first =>
        match entitiesFromItems fields with
        | .error e => .error e
        | .ok rest => .ok (first ++ rest)
  | .jNull => .error ("data must be a dictionary")
  | .jInt _ => .error ("data must be a dictionary")
  | .jStr _ => .error ("data must be a dictionary")
  | .jArr _ => .error ("data must be a dictionary")
termination_by v => sizeOf v
decreasing_by
  · simp only [JValue.jObj.sizeOf_spec]
    omega

/-- The `for key, value in data.items()` loop: recurse into the value under
a `child` key; under a `children` key iterate the value, requiring each
iterated element to be a dict; other keys contribute nothing.  Iterating a
non-list Python value under `children` raises unless the value is an empty
container (an empty dict or string iterates zero elements, so the loop body
never runs); numbers and None are not iterable and always raise. -/
def entitiesFromItems : List (String × JValue) → Except String (List SearchModel)
  | [] => .ok []
  | (k, v) :: rest =>
      if k = "child" then
        match entities_for_search_model v with
        | .error e => .error e
        | .ok here =>
          match entitiesFromItems rest with
          | .error e => .error e
          | .ok more => .ok (here ++ more)
      else if k = "children" then
        match v with
        | .jArr elems =>
            match entitiesFromChildren elems with
            | .error e => .error e
            | .ok here =>
              match entitiesFromItems rest with
              | .error e => .error e
              | .ok more => .ok (here ++ more)
        | .jObj kvs =>
            match iterNonList (.jObj kvs) with
            | .error e => .error e
            | .ok _ => entitiesFromItems rest
        | .jStr s =>
            match iterNonList (.jStr s) with
            | .error e => .error e
            | .ok _ => entitiesFromItems rest
        | .jNull => .error ("TypeError: not iterable")
        | .jInt _ => .error ("TypeError: not iterable")
      else entitiesFromItems rest
termination_by fs => sizeOf fs
decreasing_by
  all_goals simp only [List.cons.sizeOf_spec, Prod.mk.sizeOf_spec, JValue.jArr.sizeOf_spec]
  all_goals omega

/-- The inner `for child in value` loop over a children array: each element
must be a dict and is recursed into, in order. -/
def entitiesFromChildren : List JValue → Except String (List SearchModel)
  | [] => .ok []
  | c :: cs =>
      match c with
      | .jObj cfields =>
          match entities_for_search_model (.jObj cfields) with
          | .error e => .error e
          | .ok here =>
            match entitiesFromChildren cs with
            | .error e => .error e
            | .ok more => .ok (here ++ more)
      | _ => .error ("expected only dicts as children")
termination_by cs => sizeOf cs
decreasing_by
  · simp only [List.cons.sizeOf_spec, JValue.jObj.sizeOf_spec]
    omega
  · simp only [List.cons.sizeOf_spec]
    omega

end

mutual

/-- The entity leaves of a predicate tree in pre-order, left-to-right, with
duplicates preserved: the reference traversal order against which the
extractor is checked. -/
def preorderLeaves : SearchModel → List SearchModel
  | .NotSearchModel child => preorderLeaves child
  | .OrSearchModel children => preorderLeavesList children
  | .AndSearchModel children => preorderLeavesList children
  | .UserSearchModel u => [.UserSearchModel u]
  | .CompanySearchModel c => [.CompanySearchModel c]

/-- Pre-order leaves of a list of subtrees, concatenated left to right. -/
def preorderLeavesList : List SearchModel → List SearchModel
  | [] => []
  | t :: ts => preorderLeaves t ++ preorderLeavesList ts

end

/-- The serialized JSON value of an Optional[int] field state, as an optional
object entry. -/
def fvIntJson : FieldVal Int → Option JValue
  | .unset => none
  | .setNull => some .jNull
  | .val n => some (.jInt n)

/-- The serialized JSON value of an Optional[str] field state, as an optional
object entry. -/
def fvStrJson : FieldVal String → Option JValue
  | .unset => none
  | .setNull => some .jNull
  | .val s => some (.jStr s)

/-- The set (field, value) pairs a leaf emits comparisons for: each annotated
field other than the discriminator whose attribute value is not None, paired
with that value.  This is the payload view of the comparisons render_condition
emits. -/
def setPairs (entries : List (String × FieldVal Value)) : List (String × Value) :=
  entries.filterMap (fun p =>
    if p.1 != "type" then
      match p.2 with
      | .val v => some (p.1, v)
      | _ => none
    else none)

/-- Turn an explicit null field state into a never-provided one, leaving the
other states alone. -/
def FieldVal.nullToUnset : FieldVal α → FieldVal α
  | .setNull => .unset
  | .unset => .unset
  | .val a => .val a

/-- A UserSearchModel with every explicitly-null field replaced by an absent
one. -/
def clearNullsUser (u : UserFields) : UserFields :=
  ⟨u.id.nullToUnset, u.first_name.nullToUnset, u.last_name.nullToUnset,
   u.email.nullToUnset, u.company_id.nullToUnset⟩

/-- A CompanySearchModel with every explicitly-null field replaced by an
absent one. -/
def clearNullsCompany (c : CompanyFields) : CompanyFields :=
  ⟨c.id.nullToUnset, c.name.nullToUnset⟩

/-- A database row all of whose columns are NULL: users.first_name and the
other compared columns are nullable in the schema, so such rows are part of
the entity domain. -/
def rowNull : Row := fun _ _ => none

/-- A users row whose first_name column holds John and whose other columns
are NULL. -/
def rowJohn : Row := fun _ field =>
  if field = "first_name" then some (.vStr ("John")) else none

/-- The UserSearchModel leaf with only first_name set, to John. -/
def uJohnOnly : UserFields :=
  ⟨.unset, .val ("John"), .unset, .unset, .unset⟩

/-- A CompanySearchModel leaf with no field set. -/
def cUnset : CompanyFields := ⟨.unset, .unset⟩

theorem serFieldInt_key {name : String} {fv : FieldVal Int} {p : String × JValue}
    (h : p ∈ serFieldInt name fv) : p.1 = name := by
  cases fv <;> simp [serFieldInt] at h <;> simp [h]

theorem serFieldStr_key {name : String} {fv : FieldVal String} {p : String × JValue}
    (h : p ∈ serFieldStr name fv) : p.1 = name := by
  cases fv <;> simp [serFieldStr] at h <;> simp [h]

theorem lookupField_append (xs ys : List (String × JValue)) (k : String) :
    lookupField (xs ++ ys) k =
      (match lookupField xs k with
       | some v => some v
       | none => lookupField ys k) := by
  induction xs with
  | nil => simp [lookupField]
  | cons p rest ih =>
      obtain ⟨k2, v2⟩ := p
      by_cases hk : k2 = k
      · simp [lookupField, hk]
      · simp [lookupField, hk, ih]

theorem lookup_serFieldInt_self (name : String) (fv : FieldVal Int) :
    lookupField (serFieldInt name fv) name = fvIntJson fv := by
  cases fv <;> simp [serFieldInt, fvIntJson, lookupField]

theorem lookup_serFieldStr_self (name : String) (fv : FieldVal String) :
    lookupField (serFieldStr name fv) name = fvStrJson fv := by
  cases fv <;> simp [serFieldStr, fvStrJson, lookupField]

theorem lookup_serFieldInt_ne (name k : String) (fv : FieldVal Int) (h : name ≠ k) :
    lookupField (serFieldInt name fv) k = none := by
  cases fv <;> simp [serFieldInt, lookupField, h]

theorem lookup_serFieldStr_ne (name k : String) (fv : FieldVal String) (h : name ≠ k) :
    lookupField (serFieldStr name fv) k = none := by
  cases fv <;> simp [serFieldStr, lookupField, h]

theorem parseIntField_fvIntJson (name : String) (fv : FieldVal Int) :
    parseIntField name (fvIntJson fv) = .ok fv := by
  cases fv <;> rfl

theorem parseStrField_fvStrJson (name : String) (fv : FieldVal String) :
    parseStrField name (fvStrJson fv) = .ok fv := by
  cases fv <;> rfl

theorem checkExtra_ok (allowed : List String) (fs : List (String × JValue))
    (h : ∀ p ∈ fs, p.1 ∈ allowed) : checkExtra allowed fs = .ok () := by
  induction fs with
  | nil => rfl
  | cons p rest ih =>
      obtain ⟨k, v⟩ := p
      have hk : k ∈ allowed := h (k, v) (List.mem_cons_self _ _)
      simp only [checkExtra, if_pos hk]
      exact ih (fun q hq => h q (List.mem_cons_of_mem _ hq))


theorem lookup_user_type (u : UserFields) :
    lookupField (userSerFields u) ("type") = some (.jStr ("User")) := by
  simp [userSerFields, lookupField]

theorem lookup_user_id (u : UserFields) :
    lookupField (userSerFields u) ("id") = fvIntJson u.id := by
  simp [userSerFields, lookupField, lookupField_append,
    lookup_serFieldInt_self, lookup_serFieldStr_self,
    lookup_serFieldInt_ne, lookup_serFieldStr_ne]
  all_goals cases u.id <;> rfl

theorem lookup_user_first_name (u : UserFields) :
    lookupField (userSerFields u) ("first_name") = fvStrJson u.first_name := by
  simp [userSerFields, lookupField, lookupField_append,
    lookup_serFieldInt_self, lookup_serFieldStr_self,
    lookup_serFieldInt_ne, lookup_serFieldStr_ne]
  all_goals cases u.first_name <;> rfl

theorem lookup_user_last_name (u : UserFields) :
    lookupField (userSerFields u) ("last_name") = fvStrJson u.last_name := by
  simp [userSerFields, lookupField, lookupField_append,
    lookup_serFieldInt_self, lookup_serFieldStr_self,
    lookup_serFieldInt_ne, lookup_serFieldStr_ne]
  all_goals cases u.last_name <;> rfl

theorem lookup_user_email (u : UserFields) :
    lookupField (userSerFields u) ("email") = fvStrJson u.email := by
  simp [userSerFields, lookupField, lookupField_append,
    lookup_serFieldInt_self, lookup_serFieldStr_self,
    lookup_serFieldInt_ne, lookup_serFieldStr_ne]
  all_goals cases u.email <;> rfl

theorem lookup_user_company_id (u : UserFields) :
    lookupField (userSerFields u) ("company_id") = fvIntJson u.company_id := by
  simp [userSerFields, lookupField, lookupField_append,
    lookup_serFieldInt_self, lookup_serFieldStr_self,
    lookup_serFieldInt_ne, lookup_serFieldStr_ne]

theorem lookup_company_type (c : CompanyFields) :
    lookupField (companySerFields c) ("type") = some (.jStr ("Company")) := by
  simp [companySerFields, lookupField]

theorem lookup_company_id (c : CompanyFields) :
    lookupField (companySerFields c) ("id") = fvIntJson c.id := by
  simp [companySerFields, lookupField, lookupField_append,
    lookup_serFieldInt_self, lookup_serFieldStr_self,
    lookup_serFieldInt_ne, lookup_serFieldStr_ne]
  all_goals cases c.id <;> rfl

theorem lookup_company_name (c : CompanyFields) :
    lookupField (companySerFields c) ("name") = fvStrJson c.name := by
  simp [companySerFields, lookupField, lookupField_append,
    lookup_serFieldInt_self, lookup_serFieldStr_self,
    lookup_serFieldInt_ne, lookup_serFieldStr_ne]

theorem userSerFields_keys (u : UserFields) (p : String × JValue)
    (h : p ∈ userSerFields u) :
    p.1 ∈ (["type", "id", "first_name", "last_name", "email", "company_id"] : List String) := by
  rw [userSerFields] at h
  rcases List.mem_cons.mp h with h | h
  · simp [h]
  · rcases List.mem_append.mp h with h | h
    · rcases List.mem_append.mp h with h | h
      · rcases List.mem_append.mp h with h | h
        · rcases List.mem_append.mp h with h | h
          · simp [serFieldInt_key h]
          · simp [serFieldStr_key h]
        · simp [serFieldStr_key h]
      · simp [serFieldStr_key h]
    · simp [serFieldInt_key h]

theorem companySerFields_keys (c : CompanyFields) (p : String × JValue)
    (h : p ∈ companySerFields c) :
    p.1 ∈ (["type", "id", "name"] : List String) := by
  rw [companySerFields] at h
  rcases List.mem_cons.mp h with h | h
  · simp [h]
  · rcases List.mem_append.mp h with h | h
    · simp [serFieldInt_key h]
    · simp [serFieldStr_key h]

theorem parseUser_userSerFields (u : UserFields) :
    parseUser (userSerFields u) = .ok u := by
  have hd : discriminator ("UserSearchModel") (userSerFields u) = .ok () := rfl
  have hc : checkExtra ["type", "id", "first_name", "last_name", "email", "company_id"]
      (userSerFields u) = .ok () :=
    checkExtra_ok _ _ (userSerFields_keys u)
  simp only [parseUser, hd, hc, lookup_user_id, lookup_user_first_name,
    lookup_user_last_name, lookup_user_email, lookup_user_company_id,
    parseIntField_fvIntJson, parseStrField_fvStrJson]

theorem parseCompany_companySerFields (c : CompanyFields) :
    parseCompany (companySerFields c) = .ok c := by
  have hd : discriminator ("CompanySearchModel") (companySerFields c) = .ok () := rfl
  have hc : checkExtra ["type", "id", "name"] (companySerFields c) = .ok () :=
    checkExtra_ok _ _ (companySerFields_keys c)
  simp only [parseCompany, hd, hc, lookup_company_id, lookup_company_name,
    parseIntField_fvIntJson, parseStrField_fvStrJson]

theorem parseSMList_serializeList (cs : List SearchModel)
    (h : ∀ c ∈ cs, parseSM (serialize c) = .ok c) :
    parseSMList (serializeList cs) = .ok cs := by
  induction cs with
  | nil => simp [serializeList, parseSMList]
  | cons c rest ih =>
      have hc : parseSM (serialize c) = .ok c := h c (List.mem_cons_self _ _)
      have hrest : parseSMList (serializeList rest) = .ok rest :=
        ih (fun x hx => h x (List.mem_cons_of_mem _ hx))
      simp [serializeList, parseSMList, hc, hrest]

/-- Deserializing the exclude_unset serialization of any SearchModel tree
recovers the tree exactly, fields-set state included. -/
theorem parseSM_serialize : ∀ t : SearchModel, parseSM (serialize t) = .ok t
  | .NotSearchModel c => by
      have ih : parseSM (serialize c) = .ok c := parseSM_serialize c
      simp [serialize, parseSM, discriminator, has_field, get_field, lookupField,
        isNullValue, tagStr, isOk, checkExtra, ih]
  | .OrSearchModel cs => by
      have ih : ∀ c ∈ cs, parseSM (serialize c) = .ok c :=
        fun c _hc => parseSM_serialize c
      have hlist : parseSMList (serializeList cs) = .ok cs :=
        parseSMList_serializeList cs ih
      simp [serialize, parseSM, discriminator, has_field, get_field, lookupField,
        isNullValue, tagStr, isOk, checkExtra, hlist]
  | .AndSearchModel cs => by
      have ih : ∀ c ∈ cs, parseSM (serialize c) = .ok c :=
        fun c _hc => parseSM_serialize c
      have hlist : parseSMList (serializeList cs) = .ok cs :=
        parseSMList_serializeList cs ih
      simp [serialize, parseSM, discriminator, has_field, get_field, lookupField,
        isNullValue, tagStr, isOk, checkExtra, hlist]
  | .UserSearchModel u => by
      have h1 : isOk (discriminator ("NotSearchModel") (userSerFields u)) = false := rfl
      have h2 : isOk (discriminator ("OrSearchModel") (userSerFields u)) = false := rfl
      have h3 : isOk (discriminator ("AndSearchModel") (userSerFields u)) = false := rfl
      have h4 : isOk (discriminator ("UserSearchModel") (userSerFields u)) = true := rfl
      simp [serialize, parseSM, h1, h2, h3, h4, parseUser_userSerFields]
  | .CompanySearchModel c => by
      have h1 : isOk (discriminator ("NotSearchModel") (companySerFields c)) = false := rfl
      have h2 : isOk (discriminator ("OrSearchModel") (companySerFields c)) = false := rfl
      have h3 : isOk (discriminator ("AndSearchModel") (companySerFields c)) = false := rfl
      have h4 : isOk (discriminator ("UserSearchModel") (companySerFields c)) = false := rfl
      have h5 : isOk (discriminator ("CompanySearchModel") (companySerFields c)) = true := rfl
      simp [serialize, parseSM, h1, h2, h3, h4, h5, parseCompany_companySerFields]
termination_by t => sizeOf t
decreasing_by
  · simp only [SearchModel.NotSearchModel.sizeOf_spec]
    omega
  · have := List.sizeOf_lt_of_mem _hc
    simp only [SearchModel.OrSearchModel.sizeOf_spec]
    omega
  · have := List.sizeOf_lt_of_mem _hc
    simp only [SearchModel.AndSearchModel.sizeOf_spec]
    omega

theorem serialize_isObj (t : SearchModel) : ∃ fs, serialize t = .jObj fs := by
  cases t
  all_goals simp only [serialize]
  all_goals exact ⟨_, rfl⟩

theorem entitiesFromItems_no_child (fs : List (String × JValue))
    (h : ∀ p ∈ fs, p.1 ≠ "child" ∧ p.1 ≠ "children") :
    entitiesFromItems fs = .ok [] := by
  induction fs with
  | nil => simp [entitiesFromItems]
  | cons p rest ih =>
      obtain ⟨k, v⟩ := p
      have hk := h (k, v) (List.mem_cons_self _ _)
      have hrest := ih (fun q hq => h q (List.mem_cons_of_mem _ hq))
      cases v <;> simp [entitiesFromItems, hk.1, hk.2, hrest]

theorem userSerFields_no_child (u : UserFields) (p : String × JValue)
    (h : p ∈ userSerFields u) : p.1 ≠ "child" ∧ p.1 ≠ "children" := by
  have := userSerFields_keys u p h
  simp only [List.mem_cons, List.not_mem_nil, or_false] at this
  rcases this with h1 | h1 | h1 | h1 | h1 | h1 <;> rw [h1] <;> exact ⟨by decide, by decide⟩

theorem companySerFields_no_child (c : CompanyFields) (p : String × JValue)
    (h : p ∈ companySerFields c) : p.1 ≠ "child" ∧ p.1 ≠ "children" := by
  have := companySerFields_keys c p h
  simp only [List.mem_cons, List.not_mem_nil, or_false] at this
  rcases this with h1 | h1 | h1 <;> rw [h1] <;> exact ⟨by decide, by decide⟩

theorem entitiesFromChildren_serializeList (cs : List SearchModel)
    (h : ∀ c ∈ cs, entities_for_search_model (serialize c) = .ok (preorderLeaves c)) :
    entitiesFromChildren (serializeList cs) = .ok (preorderLeavesList cs) := by
  induction cs with
  | nil => simp [serializeList, entitiesFromChildren, preorderLeavesList]
  | cons c rest ih =>
      have hc : entities_for_search_model (serialize c) = .ok (preorderLeaves c) :=
        h c (List.mem_cons_self _ _)
      have hrest : entitiesFromChildren (serializeList rest) = .ok (preorderLeavesList rest) :=
        ih (fun x hx => h x (List.mem_cons_of_mem _ hx))
      obtain ⟨fs, hfs⟩ := serialize_isObj c
      rw [hfs] at hc
      simp [serializeList, entitiesFromChildren, preorderLeavesList, hfs, hc, hrest]

/-- The extractor applied to the serialization of any SearchModel tree
returns exactly the entity leaves of the tree in pre-order, left to right,
duplicates preserved. -/
theorem extract_serialize :
    ∀ t : SearchModel, entities_for_search_model (serialize t) = .ok (preorderLeaves t)
  | .NotSearchModel c => by
      have ih : entities_for_search_model (serialize c) = .ok (preorderLeaves c) :=
        extract_serialize c
      obtain ⟨fs, hfs⟩ := serialize_isObj c
      rw [hfs] at ih
      have hlast : entitiesFromItems [("child", JValue.jObj fs)] = .ok (preorderLeaves c) := by
        simp [entitiesFromItems, ih]
      have hitem : entitiesFromItems [("type", JValue.jStr ("Not")), ("child", JValue.jObj fs)]
          = .ok (preorderLeaves c) := by
        simp [entitiesFromItems, hlast]
      simp [serialize, entities_for_search_model, entityLeafHere, hfs,
        lookupField, entity_types, preorderLeaves, hitem]
  | .OrSearchModel cs => by
      have ih : ∀ c ∈ cs, entities_for_search_model (serialize c) = .ok (preorderLeaves c) :=
        fun c _hc => extract_serialize c
      have hch : entitiesFromChildren (serializeList cs) = .ok (preorderLeavesList cs) :=
        entitiesFromChildren_serializeList cs ih
      simp [serialize, entities_for_search_model, entityLeafHere, entitiesFromItems,
        lookupField, entity_types, preorderLeaves, hch]
  | .AndSearchModel cs => by
      have ih : ∀ c ∈ cs, entities_for_search_model (serialize c) = .ok (preorderLeaves c) :=
        fun c _hc => extract_serialize c
      have hch : entitiesFromChildren (serializeList cs) = .ok (preorderLeavesList cs) :=
        entitiesFromChildren_serializeList cs ih
      simp [serialize, entities_for_search_model, entityLeafHere, entitiesFromItems,
        lookupField, entity_types, preorderLeaves, hch]
  | .UserSearchModel u => by
      have hp : parseSM (.jObj (userSerFields u)) = .ok (.UserSearchModel u) := by
        have := parseSM_serialize (.UserSearchModel u)
        simpa [serialize] using this
      have hitems : entitiesFromItems (userSerFields u) = .ok [] :=
        entitiesFromItems_no_child _ (userSerFields_no_child u)
      simp [serialize, entities_for_search_model, entityLeafHere, lookup_user_type,
        entity_types, hp, hitems, preorderLeaves]
  | .CompanySearchModel c => by
      have hp : parseSM (.jObj (companySerFields c)) = .ok (.CompanySearchModel c) := by
        have := parseSM_serialize (.CompanySearchModel c)
        simpa [serialize] using this
      have hitems : entitiesFromItems (companySerFields c) = .ok [] :=
        entitiesFromItems_no_child _ (companySerFields_no_child c)
      simp [serialize, entities_for_search_model, entityLeafHere, lookup_company_type,
        entity_types, hp, hitems, preorderLeaves]
termination_by t => sizeOf t
decreasing_by
  · simp only [SearchModel.NotSearchModel.sizeOf_spec]
    omega
  · have := List.sizeOf_lt_of_mem _hc
    simp only [SearchModel.OrSearchModel.sizeOf_spec]
    omega
  · have := List.sizeOf_lt_of_mem _hc
    simp only [SearchModel.AndSearchModel.sizeOf_spec]
    omega

theorem string_append_cancel (a b c : String) (h : a ++ c = b ++ c) : a = b := by
  have hd : a.data ++ c.data = b.data ++ c.data := by
    rw [← String.data_append, ← String.data_append, h]
  have h2 := List.append_cancel_right hd
  cases a; cases b; simp at h2; simp [h2]

theorem tvAnd_eq_t (x y : TV) : tvAnd x y = TV.t ↔ (x = TV.t ∧ y = TV.t) := by
  cases x <;> cases y <;> simp [tvAnd]

theorem matchesRow_iff (row : Row) (c : Cond) :
    matchesRow row c = true ↔ evalCond row c = TV.t := by
  simp [matchesRow]

theorem evalCond_and_ (row : Row) (cs : List Cond) :
    evalCond row (and_ cs) = TV.t ↔ ∀ c ∈ cs, evalCond row c = TV.t := by
  induction cs with
  | nil => simp [and_, evalCond]
  | cons a rest ih =>
      cases rest with
      | nil => simp [and_]
      | cons b rest2 =>
          rw [show and_ (a :: b :: rest2) = Cond.andC a (and_ (b :: rest2)) from rfl]
          rw [show evalCond row (Cond.andC a (and_ (b :: rest2)))
              = tvAnd (evalCond row a) (evalCond row (and_ (b :: rest2))) from rfl]
          rw [tvAnd_eq_t, ih]
          simp only [List.forall_mem_cons]

theorem evalCond_eqCol (row : Row) (entity field : String) (v : Value) :
    evalCond row (.eqCol entity field v) = TV.t ↔ row entity field = some v := by
  simp only [evalCond]
  cases h : row entity field with
  | none => simp
  | some w =>
      by_cases hw : w = v
      · simp [hw]
      · simp [hw]

theorem leafConds_eq_map (entity : String) (es : List (String × FieldVal Value)) :
    leafConds entity es = (setPairs es).map (fun p => Cond.eqCol entity p.1 p.2) := by
  induction es with
  | nil => rfl
  | cons p rest ih =>
      obtain ⟨n, fv⟩ := p
      by_cases hn : n = "type"
      · simpa [leafConds, setPairs, List.filterMap_cons, hn] using ih
      · cases fv <;> simpa [leafConds, setPairs, List.filterMap_cons, hn] using ih

theorem checkExtra_mem_error (allowed : List String) (fs : List (String × JValue))
    (k : String) (v : JValue) (hmem : (k, v) ∈ fs) (hk : k ∉ allowed) :
    ∃ e, checkExtra allowed fs = .error e := by
  induction fs with
  | nil => simp at hmem
  | cons p rest ih =>
      obtain ⟨k2, v2⟩ := p
      by_cases h2 : k2 ∈ allowed
      · have hmem2 : (k, v) ∈ rest := by
          rcases List.mem_cons.mp hmem with heq | htail
          · exfalso
            apply hk
            have : k = k2 := by
              have := congrArg Prod.fst heq
              simpa using this
            rw [this]
            exact h2
          · exact htail
        obtain ⟨e, he⟩ := ih hmem2
        exact ⟨e, by simp [checkExtra, h2, he]⟩
      · exact ⟨k2 ++ ": extra fields not permitted", by simp [checkExtra, h2]⟩

/-- Claim C1: for every entity-leaf node (User or Company), render_condition
emits, for each field declared on the leaf class except the discriminator
whose value is set, an equality comparison between the corresponding storage
column and that value, and combines all emitted comparisons with logical AND;
when zero comparisons are emitted (all fields unset) the result is a
universally-true condition matching every row of that entity. -/
theorem claim_C1_leaf_render (u : UserFields) (c : CompanyFields) (row : Row) :
    (render_condition (.UserSearchModel u)
        = and_ (leafConds ("User") (userFieldEntries u))
      ∧ leafConds ("User") (userFieldEntries u)
        = (setPairs (userFieldEntries u)).map (fun p => Cond.eqCol ("User") p.1 p.2)
      ∧ (matchesRow row (render_condition (.UserSearchModel u)) = true ↔
          ∀ p ∈ setPairs (userFieldEntries u), row ("User") p.1 = some p.2)
      ∧ (setPairs (userFieldEntries u) = [] →
          matchesRow row (render_condition (.UserSearchModel u)) = true))
    ∧ (render_condition (.CompanySearchModel c)
        = and_ (leafConds ("Company") (companyFieldEntries c))
      ∧ leafConds ("Company") (companyFieldEntries c)
        = (setPairs (companyFieldEntries c)).map (fun p => Cond.eqCol ("Company") p.1 p.2)
      ∧ (matchesRow row (render_condition (.CompanySearchModel c)) = true ↔
          ∀ p ∈ setPairs (companyFieldEntries c), row ("Company") p.1 = some p.2)
      ∧ (setPairs (companyFieldEntries c) = [] →
          matchesRow row (render_condition (.CompanySearchModel c)) = true)) := by
  have hu : render_condition (.UserSearchModel u)
      = and_ (leafConds ("User") (userFieldEntries u)) := by
    simp [render_condition]
  have hc : render_condition (.CompanySearchModel c)
      = and_ (leafConds ("Company") (companyFieldEntries c)) := by
    simp [render_condition]
  have hiffU : matchesRow row (render_condition (.UserSearchModel u)) = true ↔
      ∀ p ∈ setPairs (userFieldEntries u), row ("User") p.1 = some p.2 := by
    rw [hu, matchesRow_iff, evalCond_and_, leafConds_eq_map]
    constructor
    · intro h p hp
      have := h _ (List.mem_map_of_mem _ hp)
      rw [evalCond_eqCol] at this
      exact this
    · intro h cnd hcnd
      obtain ⟨p, hp, rfl⟩ := List.mem_map.mp hcnd
      rw [evalCond_eqCol]
      exact h p hp
  have hiffC : matchesRow row (render_condition (.CompanySearchModel c)) = true ↔
      ∀ p ∈ setPairs (companyFieldEntries c), row ("Company") p.1 = some p.2 := by
    rw [hc, matchesRow_iff, evalCond_and_, leafConds_eq_map]
    constructor
    · intro h p hp
      have := h _ (List.mem_map_of_mem _ hp)
      rw [evalCond_eqCol] at this
      exact this
    · intro h cnd hcnd
      obtain ⟨p, hp, rfl⟩ := List.mem_map.mp hcnd
      rw [evalCond_eqCol]
      exact h p hp
  refine ⟨⟨hu, leafConds_eq_map _ _, hiffU, fun he => hiffU.mpr ?_⟩,
          ⟨hc, leafConds_eq_map _ _, hiffC, fun he => hiffC.mpr ?_⟩⟩
  · rw [he]
    intro p hp
    simp at hp
  · rw [he]
    intro p hp
    simp at hp

/-- Witness for C1 at a concrete leaf and row: the leaf with only
first_name set to John matches the row whose first_name column is John. -/
theorem claim_C1_leaf_render_witness :
    matchesRow rowJohn (render_condition (.UserSearchModel uJohnOnly)) = true :=
  ((claim_C1_leaf_render uJohnOnly cUnset rowJohn).1.2.2.1).mpr (by decide)

/-- Claim C2, evaluating the code at the failing input: rendering an Or node
with no children produces the empty clause, which the WHERE drops, so it
matches every row — while the claim (and the comment at search_models.py
lines 162-164) says it matches none.  The remaining combinator identities
hold as claimed: an empty And matches every row, and a single-child And or
Or renders exactly the child's condition, with no wrapping. -/
theorem claim_C2_empty_or_matches_all (row : Row) (X : SearchModel) :
    matchesRow row (render_condition (.OrSearchModel [])) = true
    ∧ matchesRow row (render_condition (.AndSearchModel [])) = true
    ∧ render_condition (.AndSearchModel [X]) = render_condition X
    ∧ render_condition (.OrSearchModel [X]) = render_condition X := by
  refine ⟨?_, ?_, ?_, ?_⟩ <;>
    simp [render_condition, renderConditionList, and_, or_, matchesRow, evalCond]

/-- Claim C3: serializing any valid predicate tree with exclude_unset and
deserializing the result through the discriminated union produces the same
tree, fields-set state included (absent fields stay absent). -/
theorem claim_C3_serialization_roundtrip (t : SearchModel) :
    parseSM (serialize t) = .ok t :=
  parseSM_serialize t

/-- Claim C6: on the nested-mapping form of every predicate tree the entity
extractor returns exactly the entity leaves in pre-order, left to right,
duplicates preserved; in particular And(children=[Or(children=[A,B]), C])
yields [A, B, C]. -/
theorem claim_C6_extraction_preorder (t : SearchModel) (a b : UserFields) (c : CompanyFields) :
    entities_for_search_model (serialize t) = .ok (preorderLeaves t)
    ∧ entities_for_search_model (serialize (.AndSearchModel
        [.OrSearchModel [.UserSearchModel a, .UserSearchModel b], .CompanySearchModel c]))
      = .ok [.UserSearchModel a, .UserSearchModel b, .CompanySearchModel c] := by
  refine ⟨extract_serialize t, ?_⟩
  rw [extract_serialize]
  simp [preorderLeaves, preorderLeavesList]

/-- Claim C7: entity-class resolution resolves an entity leaf directly via
the module namespace, delegates through the child of a Not node and through
the first child of an And or Or node; in particular Not(child=User(...))
resolves to the User entity class. -/
theorem claim_C7_entity_resolution (u : UserFields) (c : CompanyFields)
    (x : SearchModel) (rest : List SearchModel) :
    entity_class_for_tree (.UserSearchModel u) = .ok .User
    ∧ entity_class_for_tree (.CompanySearchModel c) = .ok .Company
    ∧ entity_class_for_tree (.NotSearchModel x) = entity_class_for_tree x
    ∧ entity_class_for_tree (.OrSearchModel (x :: rest)) = entity_class_for_tree x
    ∧ entity_class_for_tree (.AndSearchModel (x :: rest)) = entity_class_for_tree x
    ∧ entity_class_for_tree (.NotSearchModel (.UserSearchModel u)) = .ok .User := by
  refine ⟨?_, ?_, ?_, ?_, ?_, ?_⟩ <;>
    simp [entity_class_for_tree, typeFieldOf, globalsEntityLookup]

theorem isNullValue_ne (tv : JValue) (h : tv ≠ .jNull) : isNullValue (some tv) = false := by
  cases tv
  all_goals simp [isNullValue]
  exact absurd rfl h

/-- Claim C4: validation against a target variant fails whenever the type tag
does not exactly match that variant's discriminator name (a type User payload
cannot validate as the Company variant), and any object whose type field is
absent or null fails, both against the union and against each leaf variant. -/
theorem claim_C4_discriminator_enforcement (fields : List (String × JValue)) (tv : JValue) :
    (lookupField fields ("type") = some tv → tv ≠ .jNull → tagStr tv ≠ "Company" →
        isOk (parseCompany fields) = false)
    ∧ (lookupField fields ("type") = some tv → tv ≠ .jNull → tagStr tv ≠ "User" →
        isOk (parseUser fields) = false)
    ∧ (lookupField fields ("type") = none →
        isOk (parseSM (.jObj fields)) = false
        ∧ isOk (parseUser fields) = false ∧ isOk (parseCompany fields) = false)
    ∧ (lookupField fields ("type") = some .jNull →
        isOk (parseSM (.jObj fields)) = false
        ∧ isOk (parseUser fields) = false ∧ isOk (parseCompany fields) = false) := by
  refine ⟨?_, ?_, ?_, ?_⟩
  · intro hty hnull htag
    have hnv : isNullValue (some tv) = false := isNullValue_ne tv hnull
    have hne : ¬ (("CompanySearchModel" : String) = tagStr tv ++ "SearchModel") := by
      intro heq
      have hcs : ("Company" : String) ++ "SearchModel" = "CompanySearchModel" := rfl
      exact htag ((string_append_cancel _ _ _ (hcs.trans heq)).symm)
    simp [parseCompany, discriminator, has_field, get_field, hty, hnv, hne, isOk]
  · intro hty hnull htag
    have hnv : isNullValue (some tv) = false := isNullValue_ne tv hnull
    have hne : ¬ (("UserSearchModel" : String) = tagStr tv ++ "SearchModel") := by
      intro heq
      have hcs : ("User" : String) ++ "SearchModel" = "UserSearchModel" := rfl
      exact htag ((string_append_cancel _ _ _ (hcs.trans heq)).symm)
    simp [parseUser, discriminator, has_field, get_field, hty, hnv, hne, isOk]
  · intro hty
    refine ⟨?_, ?_, ?_⟩ <;>
      simp [parseSM, parseUser, parseCompany, discriminator, has_field, get_field,
        hty, isOk]
  · intro hty
    refine ⟨?_, ?_, ?_⟩ <;>
      simp [parseSM, parseUser, parseCompany, discriminator, has_field, get_field,
        hty, isNullValue, isOk]

/-- Witness for C4: the concrete type User payload fails against the Company
variant, and an object without a type field fails the union parse. -/
theorem claim_C4_discriminator_enforcement_witness :
    isOk (parseCompany [("type", JValue.jStr ("User"))]) = false
    ∧ isOk (parseSM (.jObj [("first_name", JValue.jStr ("John"))])) = false := by
  constructor
  · exact (claim_C4_discriminator_enforcement [("type", .jStr ("User"))] (.jStr ("User"))).1
      rfl (by simp) (by decide)
  · exact ((claim_C4_discriminator_enforcement [("first_name", .jStr ("John"))] .jNull).2.2.1
      rfl).1

/-- Claim C5 counterexample: the claim says any string in an integer field
fails deserialization, but pydantic lax validation coerces the
integer-parseable string 123, so this input deserializes successfully with
id = 123. -/
theorem claim_C5_counterexample :
    parseSM (.jObj [("type", JValue.jStr ("User")), ("id", JValue.jStr ("123"))])
      = .ok (.UserSearchModel ⟨.val 123, .unset, .unset, .unset, .unset⟩) := by
  have h : strToInt ("123") = some 123 := rfl
  simp [parseSM, discriminator, has_field, get_field, lookupField, isNullValue,
    tagStr, isOk, checkExtra, parseUser, parseIntField, parseStrField, h]

/-- Claim C5 as amended: a string that pydantic lax coercion cannot
interpret as an integer (after whitespace trimming, sign handling,
underscore stripping and removal of an all-zero fraction tail) fails
deserialization of an integer field (id or company_id) with an error naming
that field; a non-string in a str field (email) fails naming that field;
integer-interpretable strings are instead coerced (see the
counterexample). -/
theorem claim_C5_amended_lax_int (s : String) (hs : strToInt s = none) (n : Int) :
    parseSM (.jObj [("type", JValue.jStr ("User")), ("id", JValue.jStr s)])
      = .error ("id: value is not a valid integer")
    ∧ parseSM (.jObj [("type", JValue.jStr ("User")), ("company_id", JValue.jStr s)])
      = .error ("company_id: value is not a valid integer")
    ∧ parseSM (.jObj [("type", JValue.jStr ("User")), ("email", JValue.jInt n)])
      = .error ("email: str type expected") := by
  refine ⟨?_, ?_, ?_⟩ <;>
    simp [parseSM, discriminator, has_field, get_field, lookupField, isNullValue,
      tagStr, isOk, checkExtra, parseUser, parseIntField, parseStrField, hs]

/-- Witness for the amended C5 at the spec's own failing input. -/
theorem claim_C5_amended_lax_int_witness :
    parseSM (.jObj [("type", JValue.jStr ("User")), ("id", JValue.jStr ("not a number"))])
      = .error ("id: value is not a valid integer") :=
  (claim_C5_amended_lax_int ("not a number") (by rfl) 0).1

/-- Claim C8 counterexample: on the all-NULL row (first_name is a nullable
column), the leaf User(first_name=John) is not matched, and its negation is
not matched either, so render(Not(X)) is not the logical complement of
render(X) over the entity domain. -/
theorem claim_C8_counterexample :
    ¬ ((matchesRow rowNull (render_condition (.NotSearchModel (.UserSearchModel uJohnOnly))) = true)
        ↔ ¬ (matchesRow rowNull (render_condition (.UserSearchModel uJohnOnly)) = true)) := by
  have h1 : matchesRow rowNull (render_condition (.UserSearchModel uJohnOnly)) = false := by
    simp [render_condition, uJohnOnly, userFieldEntries, FieldVal.map, leafConds,
      List.filterMap_cons, and_, matchesRow, evalCond, rowNull]
  have h2 : matchesRow rowNull
      (render_condition (.NotSearchModel (.UserSearchModel uJohnOnly))) = false := by
    simp [render_condition, uJohnOnly, userFieldEntries, FieldVal.map, leafConds,
      List.filterMap_cons, and_, not_, matchesRow, evalCond, rowNull, tvNot]
  simp [h1, h2]

/-- Claim C8 as amended: rendering Not(child=X) applies three-valued NOT to
the rendered child, so a row satisfies render(Not(child=X)) exactly when
render(X) evaluates to false (not unknown) on it; on rows where every column
compared by X is non-NULL this coincides with the logical complement, but a
row with a NULL compared column satisfies neither X nor Not(X). -/
theorem claim_C8_amended_three_valued_negation (X : SearchModel) (row : Row) :
    evalCond row (render_condition (.NotSearchModel X))
      = tvNot (evalCond row (render_condition X))
    ∧ (matchesRow row (render_condition (.NotSearchModel X)) = true ↔
        evalCond row (render_condition X) = TV.f) := by
  have h : render_condition (.NotSearchModel X) = .notC (render_condition X) := by
    simp [render_condition, not_]
  constructor
  · rw [h]
    rfl
  · rw [h, matchesRow_iff]
    cases hv : evalCond row (render_condition X) <;> simp [evalCond, hv, tvNot]

/-- Witness for the amended C8 at a concrete tree and row. -/
theorem claim_C8_amended_three_valued_negation_witness :
    evalCond rowNull (render_condition (.NotSearchModel (.UserSearchModel uJohnOnly)))
      = tvNot (evalCond rowNull (render_condition (.UserSearchModel uJohnOnly))) :=
  (claim_C8_amended_three_valued_negation (.UserSearchModel uJohnOnly) rowNull).1

/-- Claim C9: an input object carrying a field name not declared on the
variant matched by its type tag fails deserialization, for each of the five
variants. -/
theorem claim_C9_strict_schema (fields : List (String × JValue)) (k : String) (v : JValue)
    (hmem : (k, v) ∈ fields) :
    (lookupField fields ("type") = some (.jStr ("Not")) →
        k ∉ (["type", "child"] : List String) →
        isOk (parseSM (.jObj fields)) = false)
    ∧ (lookupField fields ("type") = some (.jStr ("Or")) →
        k ∉ (["type", "children"] : List String) →
        isOk (parseSM (.jObj fields)) = false)
    ∧ (lookupField fields ("type") = some (.jStr ("And")) →
        k ∉ (["type", "children"] : List String) →
        isOk (parseSM (.jObj fields)) = false)
    ∧ (lookupField fields ("type") = some (.jStr ("User")) →
        k ∉ (["type", "id", "first_name", "last_name", "email", "company_id"] : List String) →
        isOk (parseSM (.jObj fields)) = false)
    ∧ (lookupField fields ("type") = some (.jStr ("Company")) →
        k ∉ (["type", "id", "name"] : List String) →
        isOk (parseSM (.jObj fields)) = false) := by
  refine ⟨?_, ?_, ?_, ?_, ?_⟩ <;> intro hty hk <;>
    obtain ⟨e, he⟩ := checkExtra_mem_error _ fields k v hmem hk <;>
    simp [parseSM, parseUser, parseCompany, discriminator, has_field, get_field,
      hty, isNullValue, tagStr, isOk, he]

/-- Witness for C9 at the spec's concrete input with an unknown field. -/
theorem claim_C9_strict_schema_witness :
    isOk (parseSM (.jObj [("type", JValue.jStr ("User")), ("unknown_field", JValue.jInt 1)]))
      = false :=
  (claim_C9_strict_schema _ ("unknown_field") (JValue.jInt 1) (by simp)).2.2.2.1 rfl (by decide)

/-- Claim C10: a leaf field explicitly set to null contributes no equality
comparison and renders identically to a field never provided, because
render_condition filters on the attribute value being non-None. -/
theorem claim_C10_null_equals_unset (u : UserFields) (c : CompanyFields) :
    render_condition (.UserSearchModel (clearNullsUser u))
      = render_condition (.UserSearchModel u)
    ∧ render_condition (.CompanySearchModel (clearNullsCompany c))
      = render_condition (.CompanySearchModel c) := by
  obtain ⟨f1, f2, f3, f4, f5⟩ := u
  obtain ⟨g1, g2⟩ := c
  constructor
  · have h : leafConds ("User") (userFieldEntries (clearNullsUser ⟨f1, f2, f3, f4, f5⟩))
        = leafConds ("User") (userFieldEntries ⟨f1, f2, f3, f4, f5⟩) := by
      cases f1 <;> cases f2 <;> cases f3 <;> cases f4 <;> cases f5 <;> rfl
    simp [render_condition, h]
  · have h : leafConds ("Company") (companyFieldEntries (clearNullsCompany ⟨g1, g2⟩))
        = leafConds ("Company") (companyFieldEntries ⟨g1, g2⟩) := by
      cases g1 <;> cases g2 <;> rfl
    simp [render_condition, h]
